import Mathlib

/-!
Shallow embedding of `src/utils/TowerManager.py` (class `TowerManager`).

Conventions of the embedding:
* A pandas `DataFrame` row becomes a `Row`: the pandas index label is the
  `idx` field (preserved by `.loc` filtering, exactly as pandas preserves
  labels), the columns `Operateur`, `Latitude`, `Longitude` become fields,
  and the per-network columns (`2G`, `3G`, `4G`, ...) become the
  association list `nets` from column name to the stored numeric flag.
* Python floats are modelled as rationals (`ℚ`); the arithmetic the code
  performs (subtraction, squaring, comparison) is exact on the inputs the
  program handles, so `ℚ` is a faithful, kernel-executable carrier.
* `sqrt` in `locate_closest_towers` is only ever used inside comparisons
  (`dist < best`, with the sentinel `100.0`).  Since `Real.sqrt` is
  strictly monotone on nonnegative arguments, comparing square roots is
  equivalent to comparing the squared distances; the embedding therefore
  stores and compares squared distances, with sentinel `100.0 ^ 2 = 10000`.
  This keeps every definition computable (`Real.sqrt` is not).
* A Python `dict` becomes an association list updated in place
  (`setMin` rewrites the entry of a key, preserving entry order, exactly
  like assignment to an existing dict key); lookups take the first entry.
* Fallible operations (`dict` lookups that may raise `KeyError`, the
  unbounded recursion of `reduced_database`) return `Option`; the
  recursion of `reduced_database` is given explicit fuel, and its
  divergence is modelled by the result being `none` for every fuel.
-/

set_option autoImplicit false

/-- One row of the tower DataFrame: pandas index label `idx`, the
`Operateur` code, `Latitude`, `Longitude`, and the association list of
per-network coverage flags (column name to stored numeric value). -/
structure Row where
  idx : Nat
  operateur : Int
  latitude : ℚ
  longitude : ℚ
  nets : List (String × Int)
  deriving DecidableEq, Repr

/-- The tower DataFrame: its column names and its rows. -/
structure Database where
  columns : List String
  rows : List Row
  deriving DecidableEq, Repr

/-- Modelled from the spec: the external `utils.Locator` class is out of
scope ("a validated geolocation object exposing `latitude` and
`longitude` as numeric values"); only those two fields are used by the
core. -/
structure Locator where
  latitude : ℚ
  longitude : ℚ
  deriving DecidableEq, Repr

/-- The `location` argument of `TowerManager.__init__`: either an actual
`Locator` instance or some other object (which `check_location`
rejects via `isinstance`). -/
inductive LocArg where
  | locator (l : Locator)
  | notLocator
  deriving DecidableEq, Repr

/-- The `networks` argument of `TowerManager.__init__`: omitted
(`None`), an actual Python list of strings, or a value of some other
type (which `check_networks` rejects via `isinstance`). -/
inductive NetArg where
  | noneArg
  | list (ns : List String)
  | nonList
  deriving DecidableEq, Repr

/-- State of a constructed `TowerManager` instance: the validated
location, the (mutable, see `location_coverage`) database, the resolved
networks list, and the two result attributes. -/
structure TowerManager where
  location : Locator
  database : Database
  networks : List String
  tower_indexes : List (Int × Nat)
  towers_coverage : List (String × List (String × String))
  deriving DecidableEq, Repr

/-- `TowerManager.check_location`: the location must be a `Locator`
instance, otherwise `AttributeError`.  Returns the validated locator. -/
def check_location : LocArg → Except String Locator
  | LocArg.locator l => Except.ok l
  | LocArg.notLocator => Except.error "The location provided is not a Locator!"

/-- The minimal expected columns of `check_database`. -/
def expected_columns : List String :=
  ["Operateur", "Latitude", "Longitude", "2G", "3G", "4G"]

/-- The subset test `expected_columns.issubset(database.columns)`. -/
def expectedSubset (db : Database) : Bool :=
  expected_columns.all (fun c => c ∈ db.columns)

/-- `TowerManager.check_database`: the database must contain the minimal
expected columns.  (The `database is None` branch loads the bundled CSV
from disk — dataset loading is an out-of-scope collaborator, so the
embedding takes the database as given.) -/
def check_database (db : Database) : Except String Unit :=
  if expectedSubset db then Except.ok ()
  else Except.error "Database does not contain the minimum expected columns!"

/-- The defaulting step of `check_networks`: `None` becomes
`['2G', '3G', '4G']`, a list is kept, anything else raises. -/
def resolveNetworks : NetArg → Except String (List String)
  | NetArg.noneArg => Except.ok ["2G", "3G", "4G"]
  | NetArg.list ns => Except.ok ns
  | NetArg.nonList => Except.error "networks provided is expected to be a list!"

/-- The subset test `set(networks).issubset(database.columns)`. -/
def networksSubset (db : Database) (ns : List String) : Bool :=
  ns.all (fun c => c ∈ db.columns)

/-- `TowerManager.check_networks`: default the networks, require a list,
require the networks to be database columns. -/
def check_networks (db : Database) (nets : NetArg) : Except String (List String) :=
  match resolveNetworks nets with
  | Except.error e => Except.error e
  | Except.ok ns =>
    if networksSubset db ns then Except.ok ns
    else Except.error "Provided networks are not in the database!"

/-- `TowerManager.__init__`: run the three checks in source order and
build the instance state (`tower_indexes` and `towers_coverage` start
empty). -/
def mkTowerManager (loc : LocArg) (db : Database) (nets : NetArg) :
    Except String TowerManager :=
  match check_location loc with
  | Except.error e => Except.error e
  | Except.ok l =>
    match check_database db with
    | Except.error e => Except.error e
    | Except.ok _ =>
      match check_networks db nets with
      | Except.error e => Except.error e
      | Except.ok ns =>
        Except.ok ⟨l, db, ns, [], []⟩

/-- The bounding-box filter of `reduced_database` (lines 116–119): keep
the rows with `Latitude` strictly between `lat - area` and `lat + area`
and `Longitude` strictly between `lon - area` and `lon + area`. -/
def boxFilter (rows : List Row) (lat lon area : ℚ) : List Row :=
  rows.filter fun r =>
    decide (lat - area < r.latitude ∧ r.latitude < lat + area ∧
            lon - area < r.longitude ∧ r.longitude < lon + area)

/-- `set(rows['Operateur'])`: the set of distinct operator codes. -/
def opsFinset (rows : List Row) : Finset Int :=
  (rows.map Row.operateur).toFinset

/-- `TowerManager.reduced_database`: filter to the bounding box; if the
filtered rows hold fewer than 4 distinct operators, retry on the *full*
rows with `area + 1`.  The Python recursion has no cap, so the embedding
takes explicit fuel; `none` for every fuel models divergence. -/
def reduced_database (fuel : Nat) (rows : List Row) (lat lon : ℚ) (area : ℚ) :
    Option (List Row) :=
  match fuel with
  | 0 => none
  | Nat.succ f =>
    let ret := boxFilter rows lat lon area
    if (opsFinset ret).card < 4 then reduced_database f rows lat lon (area + 1)
    else some ret

/-- Squared Euclidean distance between the query point and a row:
`dist_lat ** 2 + dist_ln ** 2`.  The source takes `sqrt` of this and
only ever compares the result; square roots compare exactly as the
squares do, so the embedding compares squares (see the header note). -/
def d2 (lat lon : ℚ) (r : Row) : ℚ :=
  (lat - r.latitude) ^ 2 + (lon - r.longitude) ^ 2

/-- The iteration order of `set(rows['Operateur'])` used to seed the
`minimums` dict: distinct operator codes, kept in first-occurrence
order.  (Python set order is unspecified; only the key *set* matters,
since each key's entry evolves independently.) -/
def opsList (rows : List Row) : List Int :=
  (rows.map Row.operateur).dedup

/-- The `minimums` dict after the seeding loop: every operator of the
scanned rows maps to `(100.0, 0)` — squared, `(10000, 0)`. -/
def initMin (ops : List Int) : List (Int × ℚ × Nat) :=
  ops.map fun op => (op, 10000, 0)

/-- `minimums[op]`: first entry with the key, as Python dict lookup
(`KeyError` is `none`). -/
def lookupMin : List (Int × ℚ × Nat) → Int → Option (ℚ × Nat)
  | [], _ => none
  | e :: t, op => if e.1 = op then some e.2 else lookupMin t op

/-- `minimums[op] = v`: assignment to an existing dict key rewrites its
entry in place, preserving entry order. -/
def setMin : List (Int × ℚ × Nat) → Int → ℚ × Nat → List (Int × ℚ × Nat)
  | [], _, _ => []
  | e :: t, op, v => (if e.1 = op then (op, v) else e) :: setMin t op v

/-- The body of the `for index, row in self.database.iterrows()` loop:
compute the squared distance and update the operator's entry when it is
strictly smaller than the stored best.  (`minimums[int(row['Operateur'])]`
always finds a key, since `minimums` was seeded with every operator of
the same rows; a missing key — Python `KeyError` — leaves `m`.) -/
def scanTower (lat lon : ℚ) (m : List (Int × ℚ × Nat)) (r : Row) :
    List (Int × ℚ × Nat) :=
  match lookupMin m r.operateur with
  | some best =>
    if d2 lat lon r < best.1 then setMin m r.operateur (d2 lat lon r, r.idx) else m
  | none => m

/-- `TowerManager.locate_closest_towers`: seed `minimums`, scan every
row once, then keep only the row index of each operator's entry
(`self.tower_indexes`). -/
def locate_closest_towers (rows : List Row) (lat lon : ℚ) : List (Int × Nat) :=
  ((rows.foldl (scanTower lat lon) (initMin (opsList rows))).map
    fun e => (e.1, e.2.2))

/-- `self.tower_indexes[op]`: dict lookup in the result of
`locate_closest_towers`. -/
def towerIndex : List (Int × Nat) → Int → Option Nat
  | [], _ => none
  | e :: t, op => if e.1 = op then some e.2 else towerIndex t op

/-- A row's flag in a given network column (`row[net]`); `none` when
the column is absent. -/
def netVal (r : Row) (net : String) : Option Int :=
  (r.nets.find? (fun e => e.1 = net)).map (fun e => e.2)

/-- `self.database.at[index, net]`: look the row up by its pandas index
label, then read the network column. -/
def dbAt (rows : List Row) (i : Nat) (net : String) : Option Int :=
  (rows.find? (fun r => r.idx = i)).bind (fun r => netVal r net)

/-- The dict `t_f = \x7b1: 'true', 0: 'false'\x7d` of
`find_towers_coverage`; lookup of any other value is a `KeyError`,
modelled as `none`. -/
def t_f (v : Int) : Option String :=
  if v = 1 then some "true" else if v = 0 then some "false" else none

/-- Run a fallible step over a list, stopping at the first failure —
the shape of every loop in `find_towers_coverage` (a raised `KeyError`
aborts the whole call). -/
def optMapList {α β : Type} (f : α → Option β) : List α → Option (List β)
  | [] => some []
  | a :: t =>
    match f a with
    | none => none
    | some b => (optMapList f t).map (fun bs => b :: bs)

/-- The inner loop of `find_towers_coverage`: for one winning row index,
map each requested network to `t_f[self.database.at[index, net]]`. -/
def coverageFor (rows : List Row) (networks : List String) (i : Nat) :
    Option (List (String × String)) :=
  optMapList (fun net => ((dbAt rows i net).bind t_f).map fun s => (net, s)) networks

/-- `TowerManager.find_towers_coverage`: for every `(operator, index)`
of `tower_indexes`, store the per-network coverage under the operator's
display label `operator_code[operator]`.  The external `operator_code`
table is an out-of-scope collaborator (`databases.datascripts`), taken
as the parameter `opCode`. -/
def find_towers_coverage (opCode : Int → String) (rows : List Row)
    (networks : List String) (ti : List (Int × Nat)) :
    Option (List (String × List (String × String))) :=
  optMapList (fun e => (coverageFor rows networks e.2).map fun cov => (opCode e.1, cov)) ti

/-- `TowerManager.location_coverage`: reassign `self.database` to the
reduced database, then locate the closest towers on it, then compute
their coverage.  `fuel` bounds the unbounded recursion of
`reduced_database`; `opCode` is the external operator-code table. -/
def location_coverage (fuel : Nat) (opCode : Int → String) (tm : TowerManager) :
    Option TowerManager :=
  match reduced_database fuel tm.database.rows tm.location.latitude
      tm.location.longitude 1 with
  | none => none
  | some red =>
    let ti := locate_closest_towers red tm.location.latitude tm.location.longitude
    match find_towers_coverage opCode red tm.networks ti with
    | none => none
    | some cov =>
      some { tm with
              database := ⟨tm.database.columns, red⟩
              tower_indexes := ti
              towers_coverage := cov }

/-- What the scan of `locate_closest_towers` does to the entry of one
fixed operator `op`: rows of other operators leave it alone, rows of
`op` update it exactly as the loop body does.  Proved equal to the dict
fold in `lookupMin_foldl_scan`. -/
def perOpStep (lat lon : ℚ) (op : Int) (b : ℚ × Nat) (r : Row) : ℚ × Nat :=
  if r.operateur = op then
    (if d2 lat lon r < b.1 then (d2 lat lon r, r.idx) else b)
  else b

/-- The entry of operator `op` after the whole scan, starting from the
seeded `(10000, 0)` (the squared `100.0` sentinel). -/
def bestFor (rows : List Row) (lat lon : ℚ) (op : Int) : ℚ × Nat :=
  rows.foldl (perOpStep lat lon op) (10000, 0)

/-- An upper bound on how far (in either coordinate) any row of the
list lies from the query point; used to show the radius growth of
`reduced_database` eventually swallows the whole dataset. -/
def maxDev (rows : List Row) (lat lon : ℚ) : ℚ :=
  rows.foldr (fun r m => max (max |lat - r.latitude| |lon - r.longitude|) m) 0

/-- A row with the three standard network columns. -/
def mkRow (i : Nat) (op : Int) (la lo : ℚ) (g2 g3 g4 : Int) : Row :=
  ⟨i, op, la, lo, [("2G", g2), ("3G", g3), ("4G", g4)]⟩

/-- The standard column list of the tower CSV. -/
def stdColumns : List String :=
  ["Operateur", "Latitude", "Longitude", "2G", "3G", "4G"]

/-- A concrete operator-code table standing in for the external
`databases.datascripts.operator_code` collaborator in concrete runs. -/
def opCodeEx : Int → String := fun o => toString o

/-- Dataset with five distinct operators: operators 1–4 in the unit box
around the origin, operator 5 far away at `(10, 10)`. -/
def rowsFiveOps : List Row :=
  [mkRow 0 1 0 0 1 1 1, mkRow 1 2 (1/2) 0 1 1 1, mkRow 2 3 0 (1/2) 1 1 1,
   mkRow 3 4 (1/2) (1/2) 1 1 1, mkRow 4 5 10 10 1 1 1]

/-- What `reduced_database` returns on `rowsFiveOps` from the origin:
the four rows of the unit box, operator 5 missing. -/
def rowsFiveOpsRed : List Row :=
  [mkRow 0 1 0 0 1 1 1, mkRow 1 2 (1/2) 0 1 1 1, mkRow 2 3 0 (1/2) 1 1 1,
   mkRow 3 4 (1/2) (1/2) 1 1 1]

/-- Dataset with four operators, three at the query point and operator
4 at distance `101` — beyond the `100.0` sentinel of
`locate_closest_towers`. -/
def rowsFarOp : List Row :=
  [mkRow 0 1 0 0 1 1 1, mkRow 1 2 0 0 1 1 1, mkRow 2 3 0 0 1 1 1,
   mkRow 3 4 101 0 1 1 1]

/-- Like `rowsFarOp` but with two rows of operator 4, equidistant at
distance `101` from the origin (row indices 3 and 4). -/
def rowsFarTie : List Row :=
  [mkRow 0 1 0 0 1 1 1, mkRow 1 2 0 0 1 1 1, mkRow 2 3 0 0 1 1 1,
   mkRow 3 4 101 0 1 1 1, mkRow 4 4 (-101) 0 1 1 1]

/-- Dataset with the four operators inside the unit box plus a fifth
row (a second tower of operator 1) far outside it: region reduction
returns a strict subset. -/
def rowsExtra : List Row :=
  [mkRow 0 1 0 0 1 0 1, mkRow 1 2 (1/2) 0 1 1 1, mkRow 2 3 0 (1/2) 1 1 1,
   mkRow 3 4 (1/2) (1/2) 1 1 1, mkRow 4 1 50 50 1 1 1]

/-- A `TowerManager` instance over `rowsExtra`, located at the origin. -/
def tmExtra : TowerManager :=
  ⟨⟨0, 0⟩, ⟨stdColumns, rowsExtra⟩, ["2G", "3G", "4G"], [], []⟩

/-- The reduced region of `rowsExtra` around the origin at radius 1:
the far second tower of operator 1 (row index 4) is gone. -/
def rowsExtraRed : List Row :=
  [mkRow 0 1 0 0 1 0 1, mkRow 1 2 (1/2) 0 1 1 1, mkRow 2 3 0 (1/2) 1 1 1,
   mkRow 3 4 (1/2) (1/2) 1 1 1]

/-- A single-operator dataset: `reduced_database` can never reach four
distinct operators on it. -/
def rowsOneOp : List Row :=
  [mkRow 0 1 0 0 1 1 1]

/-- Two towers of operator 4 tied at distance 1 from the origin (below
the sentinel), indices 0 and 1. -/
def rowsNearTie : List Row :=
  [mkRow 0 4 1 0 1 1 1, mkRow 1 4 (-1) 0 1 1 1]

/-- A row whose single network flag value `2` is neither `0` nor `1`. -/
def rowsBadFlag : List Row :=
  [mkRow 0 1 0 0 2 1 1]

/-- Membership in the bounding-box filter unfolded to the four strict
inequalities of the source. -/
theorem mem_boxFilter {rows : List Row} {lat lon area : ℚ} {r : Row} :
    r ∈ boxFilter rows lat lon area ↔
      r ∈ rows ∧ lat - area < r.latitude ∧ r.latitude < lat + area ∧
        lon - area < r.longitude ∧ r.longitude < lon + area := by
  simp [boxFilter, List.mem_filter, and_assoc]

/-- The filtered rows are rows of the input. -/
theorem boxFilter_subset {rows : List Row} {lat lon area : ℚ} {r : Row}
    (h : r ∈ boxFilter rows lat lon area) : r ∈ rows :=
  (mem_boxFilter.mp h).1

/-- Operator sets are monotone under row-list inclusion. -/
theorem opsFinset_mono {l1 l2 : List Row} (h : ∀ r ∈ l1, r ∈ l2) :
    opsFinset l1 ⊆ opsFinset l2 := by
  intro op hop
  simp only [opsFinset, List.mem_toFinset, List.mem_map] at hop ⊢
  obtain ⟨r, hr, hrop⟩ := hop
  exact ⟨r, h r hr, hrop⟩

/-- When the box is wide enough to hold every row strictly, the filter
keeps everything. -/
theorem boxFilter_eq_self {rows : List Row} {lat lon area : ℚ}
    (h : ∀ r ∈ rows, |lat - r.latitude| < area ∧ |lon - r.longitude| < area) :
    boxFilter rows lat lon area = rows := by
  apply List.filter_eq_self.mpr
  intro r hr
  obtain ⟨h1, h2⟩ := h r hr
  rw [abs_lt] at h1 h2
  simp only [decide_eq_true_eq]
  exact ⟨by linarith [h1.2], by linarith [h1.1], by linarith [h2.2], by linarith [h2.1]⟩

/-- Every row deviates from the query point by at most `maxDev`. -/
theorem le_maxDev (rows : List Row) (lat lon : ℚ) :
    ∀ r ∈ rows, |lat - r.latitude| ≤ maxDev rows lat lon ∧
      |lon - r.longitude| ≤ maxDev rows lat lon := by
  induction rows with
  | nil => simp
  | cons a t ih =>
    intro r hr
    rcases List.mem_cons.mp hr with rfl | hr
    · constructor
      · exact le_max_of_le_left (le_max_left _ _)
      · exact le_max_of_le_left (le_max_right _ _)
    · obtain ⟨h1, h2⟩ := ih r hr
      exact ⟨le_trans h1 (le_max_right _ _), le_trans h2 (le_max_right _ _)⟩

/-- If the box reached after `n` more radius increments holds at least
four distinct operators, the recursion returns within `n + 1` calls. -/
theorem reduced_database_isSome (rows : List Row) (lat lon : ℚ) :
    ∀ (n : Nat) (a : ℚ),
      4 ≤ (opsFinset (boxFilter rows lat lon (a + (n : ℚ)))).card →
      ∃ red, reduced_database (n + 1) rows lat lon a = some red := by
  intro n
  induction n with
  | zero =>
    intro a h
    rw [Nat.cast_zero, add_zero] at h
    refine ⟨boxFilter rows lat lon a, ?_⟩
    simp only [reduced_database]
    rw [if_neg (not_lt.mpr h)]
  | succ k ih =>
    intro a h
    by_cases hc : (opsFinset (boxFilter rows lat lon a)).card < 4
    · have h2 : 4 ≤ (opsFinset (boxFilter rows lat lon ((a + 1) + (k : ℚ)))).card := by
        rw [show (a + 1) + (k : ℚ) = a + ((k : ℚ) + 1) by ring, ← Nat.cast_succ]
        exact h
      obtain ⟨red, hred⟩ := ih (a + 1) h2
      refine ⟨red, ?_⟩
      simp only [reduced_database]
      rw [if_pos hc]
      exact hred
    · refine ⟨boxFilter rows lat lon a, ?_⟩
      simp only [reduced_database]
      rw [if_neg hc]

/-- Whatever `reduced_database` returns is one of the box filters, and
holds at least four distinct operators. -/
theorem reduced_database_shape (rows : List Row) (lat lon : ℚ) :
    ∀ (fuel : Nat) (a : ℚ) (red : List Row),
      reduced_database fuel rows lat lon a = some red →
      (∃ b, red = boxFilter rows lat lon b) ∧ 4 ≤ (opsFinset red).card := by
  intro fuel
  induction fuel with
  | zero => intro a red h; simp [reduced_database] at h
  | succ f ih =>
    intro a red h
    simp only [reduced_database] at h
    by_cases hc : (opsFinset (boxFilter rows lat lon a)).card < 4
    · rw [if_pos hc] at h
      exact ih (a + 1) red h
    · rw [if_neg hc] at h
      obtain rfl := Option.some.inj h
      exact ⟨⟨a, rfl⟩, not_lt.mp hc⟩

/-- C1 (amended): for every dataset with at least 4 distinct operators,
`reduced_database` terminates (some fuel suffices) and returns a subset
of the dataset holding at least 4 distinct operators; when the dataset
has exactly 4 distinct operators, the result holds at least one row for
every operator present in the full dataset.  (As originally stated —
one row per operator for *every* dataset with ≥ 4 operators — the claim
fails: the recursion stops at 4 distinct operators, see
`C1_counterexample`.) -/
theorem C1_reduced_database_terminates_covers (rows : List Row) (lat lon : ℚ)
    (h4 : 4 ≤ (opsFinset rows).card) :
    ∃ fuel red, reduced_database fuel rows lat lon 1 = some red ∧
      4 ≤ (opsFinset red).card ∧
      (∀ r ∈ red, r ∈ rows) ∧
      ((opsFinset rows).card = 4 →
        ∀ r ∈ rows, ∃ s ∈ red, s.operateur = r.operateur) := by
  obtain ⟨n, hn⟩ := exists_nat_gt (maxDev rows lat lon)
  have hfull : boxFilter rows lat lon (1 + (n : ℚ)) = rows := by
    apply boxFilter_eq_self
    intro r hr
    obtain ⟨h1, h2⟩ := le_maxDev rows lat lon r hr
    have hlt : maxDev rows lat lon < 1 + (n : ℚ) := by linarith
    exact ⟨lt_of_le_of_lt h1 hlt, lt_of_le_of_lt h2 hlt⟩
  have hcard : 4 ≤ (opsFinset (boxFilter rows lat lon (1 + (n : ℚ)))).card := by
    rw [hfull]; exact h4
  obtain ⟨red, hred⟩ := reduced_database_isSome rows lat lon n 1 hcard
  obtain ⟨⟨b, hb⟩, hc4⟩ := reduced_database_shape rows lat lon (n + 1) 1 red hred
  have hsubrows : ∀ r ∈ red, r ∈ rows := by
    intro r hr
    rw [hb] at hr
    exact boxFilter_subset hr
  have hsub : opsFinset red ⊆ opsFinset rows := opsFinset_mono hsubrows
  refine ⟨n + 1, red, hred, hc4, hsubrows, ?_⟩
  intro hcard4 r hr
  have heq : opsFinset red = opsFinset rows :=
    Finset.eq_of_subset_of_card_le hsub (by rw [hcard4]; exact hc4)
  have hmem : r.operateur ∈ opsFinset red := by
    rw [heq]
    simp only [opsFinset, List.mem_toFinset, List.mem_map]
    exact ⟨r, hr, rfl⟩
  simp only [opsFinset, List.mem_toFinset, List.mem_map] at hmem
  obtain ⟨s, hs, hsop⟩ := hmem
  exact ⟨s, hs, hsop⟩

/-- C4: on a dataset holding fewer than 4 distinct operators,
`reduced_database` never returns — for every fuel and every starting
radius the fuel-indexed model yields `none`, i.e. the Python recursion
runs forever.  The code raises no `UnboundedExpansionError` and has no
maximum-radius cap: there is no error case in the model at all, only
divergence. -/
theorem C4_reduced_database_diverges (rows : List Row) (lat lon : ℚ)
    (h : (opsFinset rows).card < 4) :
    ∀ (fuel : Nat) (area : ℚ), reduced_database fuel rows lat lon area = none := by
  intro fuel
  induction fuel with
  | zero => intro area; simp [reduced_database]
  | succ f ih =>
    intro area
    have hsub : opsFinset (boxFilter rows lat lon area) ⊆ opsFinset rows :=
      opsFinset_mono (fun r hr => boxFilter_subset hr)
    have hlt : (opsFinset (boxFilter rows lat lon area)).card < 4 :=
      lt_of_le_of_lt (Finset.card_le_card hsub) h
    simp only [reduced_database]
    rw [if_pos hlt]
    exact ih (area + 1)

/-- C6: a tower lying exactly on any of the four bounding-box
boundaries is excluded from the filtered region — all four bounds of
`boxFilter` are strict. -/
theorem C6_boundary_excluded (rows : List Row) (lat lon area : ℚ) (r : Row)
    (h : r.latitude = lat + area ∨ r.latitude = lat - area ∨
         r.longitude = lon + area ∨ r.longitude = lon - area) :
    r ∉ boxFilter rows lat lon area := by
  intro hmem
  obtain ⟨-, h1, h2, h3, h4⟩ := mem_boxFilter.mp hmem
  rcases h with h | h | h | h
  · rw [h] at h2; exact lt_irrefl _ h2
  · rw [h] at h1; exact lt_irrefl _ h1
  · rw [h] at h4; exact lt_irrefl _ h4
  · rw [h] at h3; exact lt_irrefl _ h3

/-- C8: the bounding-box filter is monotone in the radius — every row
inside the box at radius `a1` is inside the box at any radius
`a2 ≥ a1`. -/
theorem C8_boxFilter_monotone (rows : List Row) (lat lon a1 a2 : ℚ)
    (h : a1 ≤ a2) (r : Row) (hr : r ∈ boxFilter rows lat lon a1) :
    r ∈ boxFilter rows lat lon a2 := by
  obtain ⟨hmem, h1, h2, h3, h4⟩ := mem_boxFilter.mp hr
  exact mem_boxFilter.mpr
    ⟨hmem, by linarith, by linarith, by linarith, by linarith⟩

/-- An operator of a row of the list is a key of `opsList`. -/
theorem mem_opsList {rows : List Row} {op : Int} (r : Row)
    (hr : r ∈ rows) (hop : r.operateur = op) : op ∈ opsList rows := by
  simp only [opsList, List.mem_dedup, List.mem_map]
  exact ⟨r, hr, hop⟩

/-- The seeded `minimums` dict maps every key to `(10000, 0)`. -/
theorem lookupMin_initMin (ops : List Int) (op : Int) (h : op ∈ ops) :
    lookupMin (initMin ops) op = some (10000, 0) := by
  induction ops with
  | nil => cases h
  | cons a t ih =>
    rcases List.mem_cons.mp h with rfl | h
    · simp [initMin, lookupMin]
    · by_cases ha : a = op
      · simp [initMin, lookupMin, ha]
      · simpa [initMin, lookupMin, ha] using ih h

/-- Updating a present key makes lookup return the new value. -/
theorem lookupMin_setMin_self (m : List (Int × ℚ × Nat)) (op : Int)
    (v : ℚ × Nat) (b : ℚ × Nat) (h : lookupMin m op = some b) :
    lookupMin (setMin m op v) op = some v := by
  induction m with
  | nil => simp [lookupMin] at h
  | cons e t ih =>
    by_cases he : e.1 = op
    · simp [setMin, lookupMin, he]
    · simp only [lookupMin, if_neg he] at h
      simpa [setMin, lookupMin, if_neg he] using ih h

/-- Updating one key leaves the lookup of any other key unchanged. -/
theorem lookupMin_setMin_ne (m : List (Int × ℚ × Nat)) (op op2 : Int)
    (v : ℚ × Nat) (h : op2 ≠ op) :
    lookupMin (setMin m op v) op2 = lookupMin m op2 := by
  induction m with
  | nil => rfl
  | cons e t ih =>
    by_cases he : e.1 = op
    · have hne : ¬ ((op, v) : Int × ℚ × Nat).1 = op2 := fun hh => h (hh.symm)
      have he2 : ¬ (e.1 = op2) := by rw [he]; exact fun hh => h hh.symm
      simp [setMin, lookupMin, if_pos he, if_neg hne, if_neg he2, ih]
    · by_cases he2 : e.1 = op2
      · simp [setMin, lookupMin, if_neg he, if_pos he2]
      · simp [setMin, lookupMin, if_neg he, if_neg he2, ih]

/-- Bridge between the dict fold of `locate_closest_towers` and the
per-operator fold `perOpStep`: the scan updates the entry of `op`
exactly as the per-operator fold does, provided the key is present. -/
theorem lookupMin_foldl_scan (lat lon : ℚ) (op : Int) :
    ∀ (l : List Row) (m : List (Int × ℚ × Nat)) (b : ℚ × Nat),
      lookupMin m op = some b →
      lookupMin (l.foldl (scanTower lat lon) m) op =
        some (l.foldl (perOpStep lat lon op) b) := by
  intro l
  induction l with
  | nil => intro m b h; simpa using h
  | cons r t ih =>
    intro m b h
    simp only [List.foldl_cons]
    by_cases hop : r.operateur = op
    · have hl : lookupMin m r.operateur = some b := by rw [hop]; exact h
      by_cases hd : d2 lat lon r < b.1
      · have hstep : perOpStep lat lon op b r = (d2 lat lon r, r.idx) := by
          simp [perOpStep, hop, hd]
        have hscan : scanTower lat lon m r =
            setMin m r.operateur (d2 lat lon r, r.idx) := by
          simp [scanTower, hl, hd]
        rw [hstep, hscan]
        refine ih _ _ ?_
        rw [← hop]
        exact lookupMin_setMin_self m r.operateur _ b hl
      · have hstep : perOpStep lat lon op b r = b := by
          simp [perOpStep, hop, hd]
        have hscan : scanTower lat lon m r = m := by
          simp [scanTower, hl, hd]
        rw [hstep, hscan]
        exact ih _ _ h
    · have hstep : perOpStep lat lon op b r = b := by
        simp [perOpStep, hop]
      rw [hstep]
      cases hl : lookupMin m r.operateur with
      | none =>
        have hscan : scanTower lat lon m r = m := by simp [scanTower, hl]
        rw [hscan]
        exact ih _ _ h
      | some best =>
        by_cases hd : d2 lat lon r < best.1
        · have hscan : scanTower lat lon m r =
              setMin m r.operateur (d2 lat lon r, r.idx) := by
            simp [scanTower, hl, hd]
          rw [hscan]
          refine ih _ _ ?_
          rw [lookupMin_setMin_ne m r.operateur op _ (fun hh => hop hh.symm)]
          exact h
        · have hscan : scanTower lat lon m r = m := by simp [scanTower, hl, hd]
          rw [hscan]
          exact ih _ _ h

/-- Dropping the stored distances commutes with dict lookup. -/
theorem towerIndex_map (m : List (Int × ℚ × Nat)) (op : Int) :
    towerIndex (m.map fun e => (e.1, e.2.2)) op =
      (lookupMin m op).map Prod.snd := by
  induction m with
  | nil => rfl
  | cons e t ih =>
    by_cases he : e.1 = op
    · simp [towerIndex, lookupMin, he]
    · simp [towerIndex, lookupMin, he, ih]

/-- The lookup of an operator in the result of the scan is its
`bestFor` entry. -/
theorem towerIndex_locate (rows : List Row) (lat lon : ℚ) (op : Int)
    (h : op ∈ opsList rows) :
    towerIndex (locate_closest_towers rows lat lon) op =
      some (bestFor rows lat lon op).2 := by
  have hinit := lookupMin_initMin (opsList rows) op h
  have hfold := lookupMin_foldl_scan lat lon op rows _ _ hinit
  show towerIndex ((rows.foldl (scanTower lat lon)
      (initMin (opsList rows))).map fun e => (e.1, e.2.2)) op = _
  rw [towerIndex_map, hfold]
  rfl

/-- Invariant of the per-operator fold: the result is the seed or the
entry of some scanned row of the operator, its distance never grows,
and it is a lower bound of every scanned distance of the operator. -/
theorem foldl_perOpStep_inv (lat lon : ℚ) (op : Int) :
    ∀ (l : List Row) (b0 : ℚ × Nat),
      (l.foldl (perOpStep lat lon op) b0 = b0 ∨
        ∃ r ∈ l, r.operateur = op ∧
          l.foldl (perOpStep lat lon op) b0 = (d2 lat lon r, r.idx)) ∧
      (l.foldl (perOpStep lat lon op) b0).1 ≤ b0.1 ∧
      (∀ r ∈ l, r.operateur = op →
        (l.foldl (perOpStep lat lon op) b0).1 ≤ d2 lat lon r) := by
  intro l
  induction l with
  | nil => intro b0; exact ⟨Or.inl rfl, le_refl _, by simp⟩
  | cons r t ih =>
    intro b0
    simp only [List.foldl_cons]
    by_cases hop : r.operateur = op
    · by_cases hd : d2 lat lon r < b0.1
      · have hb : perOpStep lat lon op b0 r = (d2 lat lon r, r.idx) := by
          simp [perOpStep, hop, hd]
        rw [hb]
        obtain ⟨ihd, ihle, ihmin⟩ := ih (d2 lat lon r, r.idx)
        have hle1 : (t.foldl (perOpStep lat lon op) (d2 lat lon r, r.idx)).1 ≤
            d2 lat lon r := ihle
        refine ⟨?_, le_trans hle1 (le_of_lt hd), ?_⟩
        · rcases ihd with he | ⟨s, hs, hsop, he⟩
          · exact Or.inr ⟨r, List.mem_cons_self r t, hop, he⟩
          · exact Or.inr ⟨s, List.mem_cons_of_mem r hs, hsop, he⟩
        · intro s hs hsop
          rcases List.mem_cons.mp hs with rfl | hs
          · exact hle1
          · exact ihmin s hs hsop
      · have hb : perOpStep lat lon op b0 r = b0 := by
          simp [perOpStep, hop, hd]
        rw [hb]
        obtain ⟨ihd, ihle, ihmin⟩ := ih b0
        refine ⟨?_, ihle, ?_⟩
        · rcases ihd with he | ⟨s, hs, hsop, he⟩
          · exact Or.inl he
          · exact Or.inr ⟨s, List.mem_cons_of_mem r hs, hsop, he⟩
        · intro s hs hsop
          rcases List.mem_cons.mp hs with rfl | hs
          · exact le_trans ihle (not_lt.mp hd)
          · exact ihmin s hs hsop
    · have hb : perOpStep lat lon op b0 r = b0 := by simp [perOpStep, hop]
      rw [hb]
      obtain ⟨ihd, ihle, ihmin⟩ := ih b0
      refine ⟨?_, ihle, ?_⟩
      · rcases ihd with he | ⟨s, hs, hsop, he⟩
        · exact Or.inl he
        · exact Or.inr ⟨s, List.mem_cons_of_mem r hs, hsop, he⟩
      · intro s hs hsop
        rcases List.mem_cons.mp hs with rfl | hs
        · exact absurd hsop hop
        · exact ihmin s hs hsop

/-- Once the stored distance is a lower bound of every remaining
distance of the operator, the per-operator fold no longer changes. -/
theorem foldl_perOpStep_const (lat lon : ℚ) (op : Int) :
    ∀ (l : List Row) (b : ℚ × Nat),
      (∀ r ∈ l, r.operateur = op → b.1 ≤ d2 lat lon r) →
      l.foldl (perOpStep lat lon op) b = b := by
  intro l
  induction l with
  | nil => intro b _; rfl
  | cons r t ih =>
    intro b h
    simp only [List.foldl_cons]
    have hb : perOpStep lat lon op b r = b := by
      by_cases hop : r.operateur = op
      · have := h r (List.mem_cons_self r t) hop
        simp [perOpStep, hop, not_lt.mpr this]
      · simp [perOpStep, hop]
    rw [hb]
    exact ih b (fun s hs hsop => h s (List.mem_cons_of_mem r hs) hsop)

/-- C2 (amended): for every region, query point and operator of the
region that has at least one row strictly nearer than the `100.0`
sentinel (in squared form, `d2 < 10000`), `locate_closest_towers`
returns for that operator the row identifier of one of its rows whose
Euclidean distance is minimal among the operator's rows in the region.
(As originally stated — for *every* operator of the region — the claim
fails: an operator whose rows all lie at distance at least `100.0`
keeps the seeded entry `(100.0, 0)` and is reported with row
identifier `0`, see `C2_counterexample`.) -/
theorem C2_locate_min_dist_guarded (rows : List Row) (lat lon : ℚ) (op : Int)
    (r0 : Row) (h0 : r0 ∈ rows) (hop : r0.operateur = op)
    (hd : d2 lat lon r0 < 10000) :
    ∃ r ∈ rows, r.operateur = op ∧
      towerIndex (locate_closest_towers rows lat lon) op = some r.idx ∧
      ∀ s ∈ rows, s.operateur = op → d2 lat lon r ≤ d2 lat lon s := by
  have hmem : op ∈ opsList rows := mem_opsList r0 h0 hop
  have hti := towerIndex_locate rows lat lon op hmem
  obtain ⟨hdis, hle, hmin⟩ := foldl_perOpStep_inv lat lon op rows (10000, 0)
  have hlt : (bestFor rows lat lon op).1 < 10000 :=
    lt_of_le_of_lt (hmin r0 h0 hop) hd
  rcases hdis with he | ⟨r, hr, hrop, he⟩
  · rw [show rows.foldl (perOpStep lat lon op) (10000, 0) =
        bestFor rows lat lon op from rfl] at he
    rw [he] at hlt
    exact absurd hlt (lt_irrefl _)
  · rw [show rows.foldl (perOpStep lat lon op) (10000, 0) =
        bestFor rows lat lon op from rfl] at he
    refine ⟨r, hr, hrop, ?_, ?_⟩
    · rw [hti, he]
    · intro s hs hsop
      have := hmin s hs hsop
      rw [show rows.foldl (perOpStep lat lon op) (10000, 0) =
        bestFor rows lat lon op from rfl, he] at this
      exact this

/-- C7 (amended): when the first row of an operator attaining its
minimal distance lies strictly nearer than the `100.0` sentinel,
`locate_closest_towers` returns that first row's identifier — ties are
broken in favour of the first record in scan order (the update uses a
strict comparison).  (As originally stated — with no sentinel proviso —
the claim fails: two rows tied at distance at least `100.0` leave the
seeded entry untouched and identifier `0` is returned, see
`C7_counterexample`.) -/
theorem C7_first_tie_wins_guarded (lat lon : ℚ) (op : Int)
    (l1 l2 : List Row) (r1 : Row)
    (hop : r1.operateur = op) (hd : d2 lat lon r1 < 10000)
    (hbefore : ∀ r ∈ l1, r.operateur = op → d2 lat lon r1 < d2 lat lon r)
    (hafter : ∀ r ∈ l2, r.operateur = op → d2 lat lon r1 ≤ d2 lat lon r) :
    towerIndex (locate_closest_towers (l1 ++ r1 :: l2) lat lon) op =
      some r1.idx := by
  have hr1 : r1 ∈ l1 ++ r1 :: l2 := List.mem_append_right l1 (List.mem_cons_self r1 l2)
  have hmem : op ∈ opsList (l1 ++ r1 :: l2) := mem_opsList r1 hr1 hop
  have hti := towerIndex_locate (l1 ++ r1 :: l2) lat lon op hmem
  set b1 := l1.foldl (perOpStep lat lon op) (10000, 0) with hb1def
  have hb1 : d2 lat lon r1 < b1.1 := by
    obtain ⟨hdis, -, -⟩ := foldl_perOpStep_inv lat lon op l1 (10000, 0)
    rcases hdis with he | ⟨r, hr, hrop, he⟩
    · rw [← hb1def] at he
      rw [he]
      exact hd
    · rw [← hb1def] at he
      rw [he]
      exact hbefore r hr hrop
  have hsplit : bestFor (l1 ++ r1 :: l2) lat lon op =
      (r1 :: l2).foldl (perOpStep lat lon op) b1 := by
    rw [bestFor, List.foldl_append, hb1def]
  have hstep : (r1 :: l2).foldl (perOpStep lat lon op) b1 =
      l2.foldl (perOpStep lat lon op) (d2 lat lon r1, r1.idx) := by
    simp only [List.foldl_cons, perOpStep, if_pos hop, if_pos hb1]
  have hconst : l2.foldl (perOpStep lat lon op) (d2 lat lon r1, r1.idx) =
      (d2 lat lon r1, r1.idx) :=
    foldl_perOpStep_const lat lon op l2 (d2 lat lon r1, r1.idx)
      (fun r hr hrop => hafter r hr hrop)
  rw [hti, hsplit, hstep, hconst]

/-- A single failing element aborts the whole fallible traversal, as a
raised `KeyError` aborts the Python loop. -/
theorem optMapList_eq_none {α β : Type} (f : α → Option β) :
    ∀ (l : List α) (a : α), a ∈ l → f a = none → optMapList f l = none := by
  intro l
  induction l with
  | nil => intro a ha; cases ha
  | cons x t ih =>
    intro a ha hfa
    rcases List.mem_cons.mp ha with rfl | ha
    · simp [optMapList, hfa]
    · simp only [optMapList]
      cases hfx : f x with
      | none => rfl
      | some b => rw [ih a ha hfa]; rfl

/-- C3: a winning record whose flags are `2G = 1`, `3G = 0`, `4G = 1`
with the network set `2G, 3G, 4G` projects to exactly
`true, false, true` (in the canonical string representation
`t_f = 1 -> "true", 0 -> "false"` of the source) under the operator's
display label. -/
theorem C3_find_towers_coverage_round_trip (opCode : Int → String)
    (rows : List Row) (op : Int) (i : Nat)
    (h2 : dbAt rows i "2G" = some 1) (h3 : dbAt rows i "3G" = some 0)
    (h4 : dbAt rows i "4G" = some 1) :
    find_towers_coverage opCode rows ["2G", "3G", "4G"] [(op, i)] =
      some [(opCode op,
             [("2G", "true"), ("3G", "false"), ("4G", "true")])] := by
  have hcov : coverageFor rows ["2G", "3G", "4G"] i =
      some [("2G", "true"), ("3G", "false"), ("4G", "true")] := by
    simp [coverageFor, optMapList, h2, h3, h4, t_f]
  simp [find_towers_coverage, optMapList, hcov]

/-- C10: the flag-to-string table `t_f` is defined only at `1` and `0`;
if any requested network flag of any winning record holds another
value, the lookup raises (`none`) and `find_towers_coverage` produces
no coverage report at all. -/
theorem C10_coverage_lookup_error (opCode : Int → String) (rows : List Row)
    (networks : List String) (ti : List (Int × Nat)) (op : Int) (i : Nat)
    (net : String) (v : Int)
    (hti : (op, i) ∈ ti) (hnet : net ∈ networks)
    (hat : dbAt rows i net = some v) (h0 : v ≠ 0) (h1 : v ≠ 1) :
    find_towers_coverage opCode rows networks ti = none := by
  have htf : t_f v = none := by simp [t_f, h0, h1]
  have hcf : coverageFor rows networks i = none := by
    apply optMapList_eq_none _ networks net hnet
    rw [hat]
    simp [htf]
  apply optMapList_eq_none _ ti (op, i) hti
  simp [hcf]

/-- If the database holds the six expected columns it holds the three
default networks. -/
theorem default_networks_subset (db : Database) (h : expectedSubset db = true) :
    networksSubset db ["2G", "3G", "4G"] = true := by
  simp only [expectedSubset, expected_columns, List.all_cons, List.all_nil,
    Bool.and_eq_true, decide_eq_true_eq] at h
  simp only [networksSubset, List.all_cons, List.all_nil, Bool.and_eq_true,
    decide_eq_true_eq]
  exact ⟨h.2.2.2.1, h.2.2.2.2.1, h.2.2.2.2.2.1, trivial⟩

/-- C9: `TowerManager.__init__` raises exactly when the location is not
a `Locator`, the database misses an expected column, the networks
argument is neither omitted nor a list, or a requested network is not a
database column; and with the networks argument omitted (and the other
checks passing) construction succeeds with the default networks
`2G, 3G, 4G`. -/
theorem C9_mkTowerManager_spec (loc : LocArg) (db : Database) (nets : NetArg) :
    ((∃ e, mkTowerManager loc db nets = Except.error e) ↔
      (loc = LocArg.notLocator ∨ expectedSubset db = false ∨
        nets = NetArg.nonList ∨
        ∃ ns, nets = NetArg.list ns ∧ networksSubset db ns = false)) ∧
    (∀ l0, loc = LocArg.locator l0 → expectedSubset db = true →
      mkTowerManager loc db NetArg.noneArg =
        Except.ok ⟨l0, db, ["2G", "3G", "4G"], [], []⟩) := by
  constructor
  · cases loc with
    | notLocator => simp [mkTowerManager, check_location]
    | locator l =>
      by_cases hdb : expectedSubset db = true
      · cases nets with
        | noneArg =>
          have hnet := default_networks_subset db hdb
          simp [mkTowerManager, check_location, check_database, hdb,
            check_networks, resolveNetworks, hnet]
        | list ns =>
          by_cases hns : networksSubset db ns = true
          · simp [mkTowerManager, check_location, check_database, hdb,
              check_networks, resolveNetworks, hns]
          · simp only [Bool.not_eq_true] at hns
            simp [mkTowerManager, check_location, check_database, hdb,
              check_networks, resolveNetworks, hns]
        | nonList =>
          simp [mkTowerManager, check_location, check_database, hdb,
            check_networks, resolveNetworks]
      · simp only [Bool.not_eq_true] at hdb
        simp [mkTowerManager, check_location, check_database, hdb]
  · intro l0 hl hdb
    subst hl
    have hnet := default_networks_subset db hdb
    simp [mkTowerManager, check_location, check_database, hdb,
      check_networks, resolveNetworks, hnet]

section

attribute [local semireducible] Rat.add Rat.sub Rat.mul Rat.inv

/-- C1 does not hold as stated: `rowsFiveOps` has five distinct
operators (so at least 4), yet the region returned by
`reduced_database` holds no row of operator 5 — the recursion stops as
soon as any 4 distinct operators are inside the box. -/
theorem C1_counterexample :
    4 ≤ (opsFinset rowsFiveOps).card ∧
    reduced_database 1 rowsFiveOps 0 0 1 = some rowsFiveOpsRed ∧
    (5 : Int) ∈ opsFinset rowsFiveOps ∧
    (5 : Int) ∉ opsFinset rowsFiveOpsRed := by
  refine ⟨by decide, by decide, by decide, by decide⟩

/-- Witness for C1 on a concrete 4-operator dataset. -/
theorem C1_witness :
    4 ≤ (opsFinset rowsFarOp).card ∧
    (∃ fuel red, reduced_database fuel rowsFarOp 0 0 1 = some red ∧
      4 ≤ (opsFinset red).card ∧
      (∀ r ∈ red, r ∈ rowsFarOp) ∧
      ((opsFinset rowsFarOp).card = 4 →
        ∀ r ∈ rowsFarOp, ∃ s ∈ red, s.operateur = r.operateur)) :=
  ⟨by decide, C1_reduced_database_terminates_covers rowsFarOp 0 0 (by decide)⟩

/-- C2 does not hold as stated: `rowsFarOp` is itself a reduced region
(`reduced_database` returns it whole), its only row of operator 4 has
row index 3 at distance 101 from the query point, yet the search
reports operator 4 with row index 0 — the seeded sentinel entry
`(100.0, 0)` is never beaten. -/
theorem C2_counterexample :
    reduced_database 102 rowsFarOp 0 0 1 = some rowsFarOp ∧
    (rowsFarOp.filter (fun r => r.operateur = 4)).map Row.idx = [3] ∧
    towerIndex (locate_closest_towers rowsFarOp 0 0) 4 = some 0 := by
  refine ⟨by decide, by decide, by decide⟩

/-- Witness for C2: operator 1 of `rowsFarOp` has a row at the query
point, well below the sentinel. -/
theorem C2_witness :
    mkRow 0 1 0 0 1 1 1 ∈ rowsFarOp ∧
    (mkRow 0 1 0 0 1 1 1).operateur = 1 ∧
    d2 0 0 (mkRow 0 1 0 0 1 1 1) < 10000 ∧
    (∃ r ∈ rowsFarOp, r.operateur = 1 ∧
      towerIndex (locate_closest_towers rowsFarOp 0 0) 1 = some r.idx ∧
      ∀ s ∈ rowsFarOp, s.operateur = 1 → d2 0 0 r ≤ d2 0 0 s) :=
  ⟨by decide, by decide, by decide,
    C2_locate_min_dist_guarded rowsFarOp 0 0 1 (mkRow 0 1 0 0 1 1 1)
      (by decide) (by decide) (by decide)⟩

/-- Witness for C3 on row 0 of `rowsExtra`, whose flags are
`2G = 1`, `3G = 0`, `4G = 1`. -/
theorem C3_witness :
    dbAt rowsExtra 0 "2G" = some 1 ∧
    dbAt rowsExtra 0 "3G" = some 0 ∧
    dbAt rowsExtra 0 "4G" = some 1 ∧
    find_towers_coverage opCodeEx rowsExtra ["2G", "3G", "4G"] [(1, 0)] =
      some [(opCodeEx 1,
             [("2G", "true"), ("3G", "false"), ("4G", "true")])] :=
  ⟨by decide, by decide, by decide,
    C3_find_towers_coverage_round_trip opCodeEx rowsExtra 1 0
      (by decide) (by decide) (by decide)⟩

/-- Witness for C4: on the single-operator dataset the recursion makes
no progress — even 500 radius increments return nothing. -/
theorem C4_witness :
    (opsFinset rowsOneOp).card < 4 ∧
    reduced_database 500 rowsOneOp 0 0 1 = none :=
  ⟨by decide, C4_reduced_database_diverges rowsOneOp 0 0 (by decide) 500 1⟩

/-- C5 fails on the code: `location_coverage` succeeds on `tmExtra`
but afterwards the stored database is the reduced four-row region, not
the five-row dataset held before the call — the source reassigns
`self.database = self.reduced_database()`. -/
theorem C5_location_coverage_mutates :
    (location_coverage 1 opCodeEx tmExtra).map TowerManager.database =
      some ⟨stdColumns, rowsExtraRed⟩ ∧
    (⟨stdColumns, rowsExtraRed⟩ : Database) ≠ tmExtra.database := by
  refine ⟨by decide, by decide⟩

/-- Witness for C6: a tower exactly on the upper latitude boundary of
its own one-row dataset is filtered out. -/
theorem C6_witness :
    ((mkRow 9 1 1 0 1 1 1).latitude = 0 + 1 ∨
      (mkRow 9 1 1 0 1 1 1).latitude = 0 - 1 ∨
      (mkRow 9 1 1 0 1 1 1).longitude = 0 + 1 ∨
      (mkRow 9 1 1 0 1 1 1).longitude = 0 - 1) ∧
    mkRow 9 1 1 0 1 1 1 ∉ boxFilter [mkRow 9 1 1 0 1 1 1] 0 0 1 :=
  ⟨by decide,
    C6_boundary_excluded [mkRow 9 1 1 0 1 1 1] 0 0 1 (mkRow 9 1 1 0 1 1 1)
      (by decide)⟩

/-- C7 does not hold as stated: `rowsFarTie` is itself a reduced
region, operator 4 has two rows tied at distance 101 (row indices 3
then 4 in scan order), yet the search reports row index 0 — both ties
lie beyond the `100.0` sentinel, so neither ever updates the seeded
entry. -/
theorem C7_counterexample :
    reduced_database 102 rowsFarTie 0 0 1 = some rowsFarTie ∧
    d2 0 0 (mkRow 3 4 101 0 1 1 1) = d2 0 0 (mkRow 4 4 (-101) 0 1 1 1) ∧
    (rowsFarTie.filter (fun r => r.operateur = 4)).map Row.idx = [3, 4] ∧
    towerIndex (locate_closest_towers rowsFarTie 0 0) 4 = some 0 := by
  refine ⟨by decide, by decide, by decide, by decide⟩

/-- Witness for C7: two towers of operator 4 tied at distance 1 (below
the sentinel); the first in scan order, row index 0, wins. -/
theorem C7_witness :
    (mkRow 0 4 1 0 1 1 1).operateur = 4 ∧
    d2 0 0 (mkRow 0 4 1 0 1 1 1) < 10000 ∧
    towerIndex (locate_closest_towers
        ([] ++ mkRow 0 4 1 0 1 1 1 :: [mkRow 1 4 (-1) 0 1 1 1]) 0 0) 4 =
      some (mkRow 0 4 1 0 1 1 1).idx :=
  ⟨by decide, by decide,
    C7_first_tie_wins_guarded 0 0 4 [] [mkRow 1 4 (-1) 0 1 1 1]
      (mkRow 0 4 1 0 1 1 1) (by decide) (by decide) (by decide) (by decide)⟩

/-- Witness for C8: a tower inside the unit box stays inside the
radius-2 box. -/
theorem C8_witness :
    (1 : ℚ) ≤ 2 ∧
    mkRow 0 1 (1/2) 0 1 1 1 ∈ boxFilter [mkRow 0 1 (1/2) 0 1 1 1] 0 0 1 ∧
    mkRow 0 1 (1/2) 0 1 1 1 ∈ boxFilter [mkRow 0 1 (1/2) 0 1 1 1] 0 0 2 :=
  ⟨by decide, by decide,
    C8_boxFilter_monotone [mkRow 0 1 (1/2) 0 1 1 1] 0 0 1 2 (by decide)
      (mkRow 0 1 (1/2) 0 1 1 1) (by decide)⟩

/-- Witness for C9 at a concrete valid location, database and omitted
networks argument. -/
theorem C9_witness :
    ((∃ e, mkTowerManager (LocArg.locator ⟨0, 0⟩) ⟨stdColumns, rowsExtra⟩
        NetArg.noneArg = Except.error e) ↔
      (LocArg.locator ⟨0, 0⟩ = LocArg.notLocator ∨
        expectedSubset ⟨stdColumns, rowsExtra⟩ = false ∨
        NetArg.noneArg = NetArg.nonList ∨
        ∃ ns, NetArg.noneArg = NetArg.list ns ∧
          networksSubset ⟨stdColumns, rowsExtra⟩ ns = false)) ∧
    (∀ l0, LocArg.locator ⟨0, 0⟩ = LocArg.locator l0 →
      expectedSubset ⟨stdColumns, rowsExtra⟩ = true →
      mkTowerManager (LocArg.locator ⟨0, 0⟩) ⟨stdColumns, rowsExtra⟩
          NetArg.noneArg =
        Except.ok ⟨l0, ⟨stdColumns, rowsExtra⟩, ["2G", "3G", "4G"], [], []⟩) :=
  C9_mkTowerManager_spec (LocArg.locator ⟨0, 0⟩) ⟨stdColumns, rowsExtra⟩
    NetArg.noneArg

/-- Witness for C10: a flag value `2` in the `2G` column of the winning
row makes the whole coverage call fail. -/
theorem C10_witness :
    ((1 : Int), (0 : Nat)) ∈ [((1 : Int), (0 : Nat))] ∧
    "2G" ∈ ["2G"] ∧
    dbAt rowsBadFlag 0 "2G" = some 2 ∧
    (2 : Int) ≠ 0 ∧ (2 : Int) ≠ 1 ∧
    find_towers_coverage opCodeEx rowsBadFlag ["2G"] [(1, 0)] = none :=
  ⟨by decide, by decide, by decide, by decide, by decide,
    C10_coverage_lookup_error opCodeEx rowsBadFlag ["2G"] [(1, 0)] 1 0 "2G" 2
      (by decide) (by decide) (by decide) (by decide) (by decide)⟩

end
